import Mathlib

/-!
Verification development for `node-red-contrib-influxdb3` (`src/influxdb3.js`).

The file gives a shallow embedding of the three node input handlers
(`InfluxOutNode`, `InfluxBatchNode`, `InfluxInNode`) and the shared point
construction helpers (`createPointFromData`, `addFieldToPoint`), and proves
the spec's testable properties about them.

Modelling conventions:
* JavaScript values reaching the handlers are modelled by `JSValue`.
  Numbers are rationals (`Number.isInteger v` becomes `v.den = 1`); plain
  objects are ordered entry lists in `Object.entries` order (real JS objects
  never repeat a key, so theorems that need it take a `Nodup` hypothesis);
  arrays are lists.
* The injected database client (`@influxdata/influxdb3-client`) is external
  to the repository, so its `Point` class is modelled from the spec as the
  `DataPoint` record of §3 with map-overwrite insertion (§4.2), and its
  opaque line-protocol serialization as an injective wrapper `LineProtocol`.
* A handler invocation is a pure function from the message, the node/config
  settings and the client's behaviour (a function returning `Except`) to the
  observable outcome: the ordered list of issued client calls, the final
  `msg.influx_error` annotation, and the argument passed to `done`.
-/

set_option autoImplicit false

/-- JavaScript values as observed by the node code under test. -/
inductive JSValue where
  | num (q : ℚ)
  | str (s : String)
  | boolean (b : Bool)
  | null
  | undef
  | obj (entries : List (String × JSValue))
  | arr (items : List JSValue)

/-- Test for the two JavaScript values on which property and index access
throws a `TypeError` (`null` and `undefined`). -/
def JSValue.isNullish : JSValue → Bool
  | .null => true
  | .undef => true
  | _ => false

/-- Message of the `TypeError` thrown when reading a property of `null` or
`undefined`. -/
def nullishReadError (v : JSValue) (key : String) : String :=
  match v with
  | JSValue.undef => "Cannot read properties of undefined (reading '" ++ key ++ "')"
  | _ => "Cannot read properties of null (reading '" ++ key ++ "')"

/-- Lodash `_.isPlainObject`. -/
def JSValue.isPlainObject : JSValue → Bool
  | .obj _ => true
  | _ => false

/-- Lodash `_.isArray`. -/
def JSValue.isArr : JSValue → Bool
  | .arr _ => true
  | _ => false

/-- Entries of a plain object (`Object.entries`); empty for non-objects. -/
def JSValue.objEntries : JSValue → List (String × JSValue)
  | .obj entries => entries
  | _ => []

/-- JavaScript truthiness of a modelled value. -/
def JSValue.truthy : JSValue → Bool
  | .num q => decide (q ≠ 0)
  | .str s => decide (s ≠ "")
  | .boolean b => b
  | .null => false
  | .undef => false
  | .obj _ => true
  | .arr _ => true

/-- Indexing `v[i]` with a numeric literal: array element, string character,
or object property looked up by the decimal key; `undefined` otherwise.
Indexing `null`/`undefined` throws in JavaScript; the loops that can reach
that case surface the throw themselves (`buildOutPairPoints`, `batchLoop`). -/
def JSValue.idx (v : JSValue) (i : Nat) : JSValue :=
  match v with
  | .arr items => items.getD i JSValue.undef
  | .obj entries =>
    match entries.find? (fun e => e.1 == toString i) with
    | some e => e.2
    | none => JSValue.undef
  | .str s =>
    match s.toList.drop i with
    | [] => JSValue.undef
    | c :: _ => JSValue.str (String.mk [c])
  | _ => JSValue.undef

/-- Property access `v.key`; `undefined` on non-objects (the handlers only
read properties of loop items, and guard `null`/`undefined` at the loop). -/
def JSValue.prop (v : JSValue) (key : String) : JSValue :=
  match v with
  | .obj entries =>
    match entries.find? (fun e => e.1 == key) with
    | some e => e.2
    | none => JSValue.undef
  | _ => JSValue.undef

/-- String conversion of a number, `String(q)`. Integral values print as
decimal integers exactly as in JavaScript; for non-integral values the model
prints the exact fraction (JavaScript's shortest round-trip double rendering
is outside the rational model; no claim depends on that rendering). -/
def jsNumToString (q : ℚ) : String :=
  if q.den = 1 then toString q.num else toString q.num ++ "/" ++ toString q.den

mutual

/-- JavaScript `String(value)` conversion as used for tag values and the
fallback field branch. -/
def jsToString : JSValue → String
  | .num q => jsNumToString q
  | .str s => s
  | .boolean b => if b then "true" else "false"
  | .null => "null"
  | .undef => "undefined"
  | .obj _ => "[object Object]"
  | .arr items => String.intercalate "," (jsArrayElemStrings items)

/-- Array stringification (`Array.prototype.join(",")`): `null` and
`undefined` elements become empty strings. -/
def jsArrayElemStrings : List JSValue → List String
  | [] => []
  | JSValue.null :: rest => "" :: jsArrayElemStrings rest
  | JSValue.undef :: rest => "" :: jsArrayElemStrings rest
  | v :: rest => jsToString v :: jsArrayElemStrings rest

end

/-- Typed field values of a data point (spec §3 `TypedValue`). -/
inductive TypedValue where
  | integer (n : ℤ)
  | float (q : ℚ)
  | boolean (b : Bool)
  | string (s : String)

/-- Modelled from the spec: the client library's `Point` record (§3
`DataPoint`): measurement, ordered field map, tag map, optional timestamp.
The timestamp keeps the raw value handed to `point.timestamp(...)`; its
interpretation is delegated to the client (§4.2). -/
structure DataPoint where
  measurement : String
  fields : List (String × TypedValue)
  tags : List (String × String)
  timestamp : Option JSValue

/-- Map-overwrite insertion into an ordered association list: a later
occurrence of a key overwrites in place, a fresh key is appended (§4.2
"standard mapping overwrite semantics", insertion order of first appearance). -/
def upsert {α : Type} (l : List (String × α)) (key : String) (value : α) :
    List (String × α) :=
  if l.any (fun e => e.1 == key) then
    l.map (fun e => if e.1 == key then (key, value) else e)
  else l ++ [(key, value)]

/-- Construction `new Point(measurement)`. -/
def newPoint (measurement : String) : DataPoint :=
  { measurement := measurement, fields := [], tags := [], timestamp := none }

/-- Client method `point.intField(name, v)`. -/
def DataPoint.intField (p : DataPoint) (name : String) (v : ℤ) : DataPoint :=
  { p with fields := upsert p.fields name (TypedValue.integer v) }

/-- Client method `point.floatField(name, v)`. -/
def DataPoint.floatField (p : DataPoint) (name : String) (v : ℚ) : DataPoint :=
  { p with fields := upsert p.fields name (TypedValue.float v) }

/-- Client method `point.booleanField(name, v)`. -/
def DataPoint.booleanField (p : DataPoint) (name : String) (v : Bool) : DataPoint :=
  { p with fields := upsert p.fields name (TypedValue.boolean v) }

/-- Client method `point.stringField(name, v)`. -/
def DataPoint.stringField (p : DataPoint) (name : String) (v : String) : DataPoint :=
  { p with fields := upsert p.fields name (TypedValue.string v) }

/-- Client method `point.tag(key, v)`. -/
def DataPoint.tag (p : DataPoint) (key v : String) : DataPoint :=
  { p with tags := upsert p.tags key v }

/-- Client method `point.timestamp(v)` (named `setTimestamp` here because
`timestamp` is the record field). -/
def DataPoint.setTimestamp (p : DataPoint) (v : JSValue) : DataPoint :=
  { p with timestamp := some v }

/-- Modelled from the spec: `point.toLineProtocol()` is the client library's
opaque line-oriented serialization (Glossary: "opaque to this core"),
modelled as an injective wrapper around the point. -/
structure LineProtocol where
  point : DataPoint

/-- Serialization call `point.toLineProtocol()`. -/
def DataPoint.toLineProtocol (p : DataPoint) : LineProtocol :=
  { point := p }

/-- Test of the regular expression `^-?\d+i$` from `addFieldToPoint`. -/
def matchesIntPattern (s : String) : Bool :=
  let cs := s.toList
  let body := if cs.head? == some '-' then cs.tail else cs
  body.getLast? == some 'i' && !body.dropLast.isEmpty
    && body.dropLast.all (fun c => c.isDigit)

/-- Decimal value of a digit list, most significant digit first. -/
def digitsToNat (cs : List Char) : ℕ :=
  cs.foldl (fun acc c => 10 * acc + (c.toNat - 48)) 0

/-- Modelled from the spec: JavaScript `parseInt` restricted to the strings
of shape `-?\d+` that the regular-expression guard in `addFieldToPoint`
admits ("strip the trailing marker and parse the remaining digits", §4.1). -/
def parseIntJS (s : String) : ℤ :=
  if s.toList.head? == some '-' then -(digitsToNat s.toList.tail : ℤ)
  else (digitsToNat s.toList : ℤ)

/-- Helper `addFieldToPoint(point, name, value)` from `src/influxdb3.js`:
numbers hit `intField`/`floatField` by `Number.isInteger`, strings matching
`^-?\d+i$` are parsed to integers, booleans go to `booleanField`, and every
other value is stringified into `stringField`. -/
def addFieldToPoint (point : DataPoint) (name : String) (value : JSValue) :
    DataPoint :=
  match value with
  | .num q => if q.den = 1 then point.intField name q.num else point.floatField name q
  | .str s =>
    if matchesIntPattern s then
      point.intField name (parseIntJS (String.mk s.toList.dropLast))
    else point.stringField name s
  | .boolean b => point.booleanField name b
  | v => point.stringField name (jsToString v)

/-- Classified value of the field classifier (§4.1 `classify`): the typed
value that `addFieldToPoint` stores for a given input value. -/
def classifyValue (value : JSValue) : TypedValue :=
  match value with
  | .num q => if q.den = 1 then TypedValue.integer q.num else TypedValue.float q
  | .str s =>
    if matchesIntPattern s then
      TypedValue.integer (parseIntJS (String.mk s.toList.dropLast))
    else TypedValue.string s
  | .boolean b => TypedValue.boolean b
  | v => TypedValue.string (jsToString v)

/-- Tag loop body `point.tag(key, String(value))`. -/
def tagStep (point : DataPoint) (entry : String × JSValue) : DataPoint :=
  point.tag entry.1 (jsToString entry.2)

/-- Loop body of `createPointFromData` over `Object.entries(data)`: the key
`time` sets the timestamp, a plain-object-valued key `tags` populates the
tag set, and every other entry becomes a classified field. -/
def objFoldStep (point : DataPoint) (entry : String × JSValue) : DataPoint :=
  if entry.1 == "time" then point.setTimestamp entry.2
  else if entry.1 == "tags" && entry.2.isPlainObject then
    entry.2.objEntries.foldl tagStep point
  else addFieldToPoint point entry.1 entry.2

/-- Helper `createPointFromData(measurement, data)` from `src/influxdb3.js`. -/
def createPointFromData (measurement : String) (data : JSValue) : DataPoint :=
  match data with
  | .obj entries => entries.foldl objFoldStep (newPoint measurement)
  | _ => addFieldToPoint (newPoint measurement) "value" data

/-- Field loop body of the `[fields, tags]` pair paths in `InfluxOutNode`:
the key `time` sets the timestamp, everything else is a classified field. -/
def pairFieldStep (point : DataPoint) (entry : String × JSValue) : DataPoint :=
  if entry.1 == "time" then point.setTimestamp entry.2
  else addFieldToPoint point entry.1 entry.2

/-- Point construction for one `[fieldsMap, tagsMap]` pair in `InfluxOutNode`
(both the per-element body of the array-of-arrays branch and the single-pair
branch, which are textually identical in the source): `element[0]` supplies
fields when it is a truthy plain object, `element[1]` supplies tags likewise. -/
def buildPairPoint (measurement : String) (element : JSValue) : DataPoint :=
  let point := newPoint measurement
  let e0 := element.idx 0
  let point :=
    if e0.truthy && e0.isPlainObject then e0.objEntries.foldl pairFieldStep point
    else point
  let e1 := element.idx 1
  if e1.truthy && e1.isPlainObject then e1.objEntries.foldl tagStep point
  else point

/-- The `forEach` of the array-of-arrays branch of `InfluxOutNode`: one point
per element, in order; accessing `element[0]` on a `null`/`undefined`
element throws a `TypeError`, aborting the whole construction. -/
def buildOutPairPoints (measurement : String) :
    List JSValue → Except String (List DataPoint)
  | [] => Except.ok []
  | element :: rest =>
    if element.isNullish then Except.error (nullishReadError element "0")
    else
      (buildOutPairPoints measurement rest).map
        (fun ps => buildPairPoint measurement element :: ps)

/-- Point list construction of the `InfluxOutNode` input handler: an array
payload whose first element is an array is treated as pairs, any other array
as a single pair, and a non-array payload goes through `createPointFromData`. -/
def buildOutPoints (measurement : String) (payload : JSValue) :
    Except String (List DataPoint) :=
  match payload with
  | .arr items =>
    if items.length > 0 && (items.getD 0 JSValue.undef).isArr then
      buildOutPairPoints measurement items
    else
      Except.ok [buildPairPoint measurement (JSValue.arr items)]
  | _ => Except.ok [createPointFromData measurement payload]

/-- Argument passed to the Node-RED `done` callback: `done()`, `done(string)`
for the localized validation strings, or `done(error)` with an `Error`. -/
inductive DoneArg where
  | success
  | failString (s : String)
  | failError (message : String)

/-- Observable outcome of one write-node handler invocation: the client write
calls issued in order, the final `msg.influx_error` annotation (its
`errorMessage` when set), and the `done` argument. -/
structure OutResult where
  writes : List (LineProtocol × String)
  influxError : Option String
  done : DoneArg

/-- Message fields read by the `InfluxOutNode` handler; `none` models a
property the message does not have (`msg.hasOwnProperty(...)` false). -/
structure OutMsg where
  payload : JSValue
  measurement : Option String
  database : Option String

/-- Sequential awaited write loop `for (const point of points) await
client.write(point.toLineProtocol(), database)`: stops at the first client
error. -/
def writeLoop (client : LineProtocol → String → Except String Unit)
    (database : String) : List DataPoint → List (LineProtocol × String) × Option String
  | [] => ([], none)
  | point :: rest =>
    match client point.toLineProtocol database with
    | .ok _ =>
      let r := writeLoop client database rest
      ((point.toLineProtocol, database) :: r.1, r.2)
    | .error e => ([(point.toLineProtocol, database)], some e)

/-- Input handler of `InfluxOutNode`: resolve the measurement (message
override, else node config; falsy fails with the localized missing
measurement string and no annotation), resolve the database, build the
points, then write them sequentially; any throw is caught, annotated on
`msg.influx_error`, and passed to `done`. -/
def influxOutOnInput (nodeMeasurement : String) (configDatabase : String)
    (client : LineProtocol → String → Except String Unit) (msg : OutMsg) :
    OutResult :=
  let measurement := match msg.measurement with
    | some m => m
    | none => nodeMeasurement
  if measurement == "" then
    { writes := [], influxError := none,
      done := DoneArg.failString "influxdb.errors.nomeasurement" }
  else
    let database := match msg.database with
      | some d => d
      | none => configDatabase
    match buildOutPoints measurement msg.payload with
    | .error e =>
      { writes := [], influxError := some e, done := DoneArg.failError e }
    | .ok points =>
      match writeLoop client database points with
      | (ws, none) => { writes := ws, influxError := none, done := DoneArg.success }
      | (ws, some e) =>
        { writes := ws, influxError := some e, done := DoneArg.failError e }

/-- Point construction for one batch item in `InfluxBatchNode`: its own
`measurement` (stringified into the point name), optional `fields` mapping,
optional `tags` mapping, and a truthy top-level `timestamp` override. -/
def buildBatchPoint (item : JSValue) : DataPoint :=
  let point := newPoint (jsToString (item.prop "measurement"))
  let fields := item.prop "fields"
  let point :=
    if fields.truthy && fields.isPlainObject then
      fields.objEntries.foldl (fun p e => addFieldToPoint p e.1 e.2) point
    else point
  let tags := item.prop "tags"
  let point :=
    if tags.truthy && tags.isPlainObject then tags.objEntries.foldl tagStep point
    else point
  let ts := item.prop "timestamp"
  if ts.truthy then point.setTimestamp ts else point

/-- Batch loop of `InfluxBatchNode`: items with a falsy `measurement` are
skipped with `continue`, every other item is built and written immediately;
reading `.measurement` of a `null`/`undefined` item throws, and a client
error aborts the loop. -/
def batchLoop (client : LineProtocol → String → Except String Unit)
    (database : String) : List JSValue → List (LineProtocol × String) × Option String
  | [] => ([], none)
  | item :: rest =>
    if item.isNullish then ([], some (nullishReadError item "measurement"))
    else if (item.prop "measurement").truthy then
      let point := buildBatchPoint item
      match client point.toLineProtocol database with
      | .ok _ =>
        let r := batchLoop client database rest
        ((point.toLineProtocol, database) :: r.1, r.2)
      | .error e => ([(point.toLineProtocol, database)], some e)
    else batchLoop client database rest

/-- Message fields read by the `InfluxBatchNode` handler. -/
structure BatchMsg where
  payload : JSValue
  database : Option String

/-- Input handler of `InfluxBatchNode`: a non-array payload is rejected with
`done(new Error(...))` and no annotation; otherwise the batch loop runs and
any thrown error is annotated and passed to `done`. -/
def influxBatchOnInput (configDatabase : String)
    (client : LineProtocol → String → Except String Unit) (msg : BatchMsg) :
    OutResult :=
  let database := match msg.database with
    | some d => d
    | none => configDatabase
  match msg.payload with
  | .arr items =>
    match batchLoop client database items with
    | (ws, none) => { writes := ws, influxError := none, done := DoneArg.success }
    | (ws, some e) =>
      { writes := ws, influxError := some e, done := DoneArg.failError e }
  | _ =>
    { writes := [], influxError := none,
      done := DoneArg.failError "Payload must be an array for batch operations" }

/-- Message fields read by the `InfluxInNode` handler. -/
structure InMsg where
  query : Option String
  queryType : Option String
  database : Option String

/-- Downstream-visible events of one `InfluxInNode` invocation, in order:
`send(msg)` calls (with the payload the message carries at that moment) and
the final `done` call. -/
inductive InEvent where
  | send (payload : JSValue)
  | doneCall (arg : DoneArg)

/-- Observable outcome of one `InfluxInNode` handler invocation. -/
structure InResult where
  queries : List (String × String × Option String)
  events : List InEvent
  influxError : Option String

/-- Input handler of `InfluxInNode`: resolve query text (falsy fails with
the localized missing query string), database and query type; issue one
client query call with `options.type` set only for `influxql`; on success
drain the row sequence into a list, set it as the payload, send, then signal
success; a thrown error is annotated and passed to `done`. -/
def influxInOnInput (nodeQuery : String) (nodeQueryType : String)
    (configDatabase : String)
    (client : String → String → Option String → Except String (List JSValue))
    (msg : InMsg) : InResult :=
  let query := match msg.query with
    | some q => q
    | none => nodeQuery
  if query == "" then
    { queries := [],
      events := [InEvent.doneCall (DoneArg.failString "influxdb.errors.noquery")],
      influxError := none }
  else
    let database := match msg.database with
      | some d => d
      | none => configDatabase
    let queryType := match msg.queryType with
      | some t => t
      | none => nodeQueryType
    let opts : Option String := if queryType == "influxql" then some "influxql" else none
    match client query database opts with
    | .ok rows =>
      { queries := [(query, database, opts)],
        events := [InEvent.send (JSValue.arr rows), InEvent.doneCall DoneArg.success],
        influxError := none }
    | .error e =>
      { queries := [(query, database, opts)],
        events := [InEvent.doneCall (DoneArg.failError e)],
        influxError := some e }

/-- Client stub whose write call always succeeds. -/
def okClient : LineProtocol → String → Except String Unit := fun _ _ => Except.ok ()

/-- Client stub whose write call always fails with the message `boom`. -/
def boomClient : LineProtocol → String → Except String Unit :=
  fun _ _ => Except.error "boom"

/-- Spec-side reading of the pattern "optional leading minus sign, one or
more digits, followed by the literal character `i`" (§4.1): the string's
characters decompose as an optional minus sign, a nonempty digit block
`ds`, and a final `i`. -/
def specIntLiteral (neg : Bool) (ds : List Char) (s : String) : Prop :=
  ds ≠ [] ∧ (∀ c ∈ ds, c.isDigit = true) ∧
    s.toList = (cond neg ['-'] []) ++ (ds ++ ['i'])

/-- Spec-side decimal value of a digit block, most significant digit first,
phrased through Mathlib's little-endian `Nat.ofDigits`. -/
def specDigitsValue (ds : List Char) : ℕ :=
  Nat.ofDigits 10 ((ds.map (fun c => c.toNat - 48)).reverse)

/-! Helper lemmas about the embedding. -/

/-- Inserting a key not yet present appends the entry. -/
theorem upsert_fresh {α : Type} (l : List (String × α)) (key : String) (value : α)
    (h : key ∉ l.map Prod.fst) : upsert l key value = l ++ [(key, value)] := by
  unfold upsert
  rw [if_neg]
  simp only [List.any_eq_true, beq_iff_eq, not_exists, not_and]
  intro e he heq
  exact h (List.mem_map.mpr ⟨e, he, heq⟩)

/-- Characterization of `addFieldToPoint` as a field-map insertion of the
classified value. -/
theorem addFieldToPoint_eq (p : DataPoint) (name : String) (value : JSValue) :
    addFieldToPoint p name value =
      { p with fields := upsert p.fields name (classifyValue value) } := by
  cases value <;>
    simp only [addFieldToPoint, classifyValue, DataPoint.intField, DataPoint.floatField,
      DataPoint.booleanField, DataPoint.stringField] <;>
    (try split) <;> rfl

/-- Adding a field never changes the timestamp. -/
theorem addFieldToPoint_timestamp (p : DataPoint) (name : String) (value : JSValue) :
    (addFieldToPoint p name value).timestamp = p.timestamp := by
  rw [addFieldToPoint_eq]

/-- A predicate-based find over entries with an absent key yields nothing. -/
theorem find?_key_eq_none {α : Type} (l : List (String × α)) (key : String)
    (f : String × α → Bool) (hf : ∀ e, f e = true → e.1 = key)
    (h : key ∉ l.map Prod.fst) : l.find? f = none := by
  rw [List.find?_eq_none]
  intro x hx hfx
  exact h (List.mem_map.mpr ⟨x, hx, hf x hfx⟩)

/-- Folding fresh, duplicate-free entries through `addFieldToPoint` appends
their classified values to the field map and changes nothing else. -/
theorem fieldFold_eq (tes : List (String × JSValue)) : ∀ (p : DataPoint),
    (tes.map Prod.fst).Nodup →
    (∀ k ∈ tes.map Prod.fst, k ∉ p.fields.map Prod.fst) →
    tes.foldl (fun p e => addFieldToPoint p e.1 e.2) p =
      { p with fields := p.fields ++ tes.map (fun e => (e.1, classifyValue e.2)) } := by
  induction tes with
  | nil => intro p _ _; simp
  | cons e tes ih =>
    intro p hnd hdisj
    simp only [List.map_cons, List.nodup_cons] at hnd
    simp only [List.foldl_cons]
    rw [addFieldToPoint_eq, upsert_fresh _ _ _ (hdisj e.1 (by simp))]
    rw [ih _ hnd.2]
    · simp
    · intro k hk
      simp only [List.map_append, List.mem_append, List.map_cons, List.map_nil]
      rintro (h | h)
      · exact hdisj k (by simp [hk]) h
      · simp only [List.mem_singleton] at h
        exact hnd.1 (h ▸ hk)

/-- Folding fresh, duplicate-free entries through `tagStep` appends their
stringified values to the tag map and changes nothing else. -/
theorem tagFold_eq (tes : List (String × JSValue)) : ∀ (p : DataPoint),
    (tes.map Prod.fst).Nodup →
    (∀ k ∈ tes.map Prod.fst, k ∉ p.tags.map Prod.fst) →
    tes.foldl tagStep p =
      { p with tags := p.tags ++ tes.map (fun e => (e.1, jsToString e.2)) } := by
  induction tes with
  | nil => intro p _ _; simp
  | cons e tes ih =>
    intro p hnd hdisj
    simp only [List.map_cons, List.nodup_cons] at hnd
    simp only [List.foldl_cons, tagStep, DataPoint.tag]
    rw [upsert_fresh _ _ _ (hdisj e.1 (by simp))]
    rw [ih _ hnd.2]
    · simp
    · intro k hk
      simp only [List.map_append, List.mem_append, List.map_cons, List.map_nil]
      rintro (h | h)
      · exact hdisj k (by simp [hk]) h
      · simp only [List.mem_singleton] at h
        exact hnd.1 (h ▸ hk)

/-- The field fold never changes the timestamp. -/
theorem fieldFold_timestamp (tes : List (String × JSValue)) : ∀ (p : DataPoint),
    (tes.foldl (fun p e => addFieldToPoint p e.1 e.2) p).timestamp = p.timestamp := by
  induction tes with
  | nil => intro p; rfl
  | cons e tes ih =>
    intro p
    simp only [List.foldl_cons]
    rw [ih, addFieldToPoint_timestamp]

/-- The tag fold never changes the timestamp. -/
theorem tagFold_timestamp (tes : List (String × JSValue)) : ∀ (p : DataPoint),
    (tes.foldl tagStep p).timestamp = p.timestamp := by
  induction tes with
  | nil => intro p; rfl
  | cons e tes ih =>
    intro p
    simp only [List.foldl_cons]
    rw [ih]
    rfl

/-- With an always-succeeding client, the write loop issues exactly one call
per point, in list order. -/
theorem writeLoop_ok (client : LineProtocol → String → Except String Unit)
    (database : String) (hok : ∀ lp d, client lp d = Except.ok ()) :
    ∀ points, writeLoop client database points =
      (points.map (fun p => (p.toLineProtocol, database)), none) := by
  intro points
  induction points with
  | nil => rfl
  | cons p ps ih => simp [writeLoop, hok, ih]

/-- With no nullish element, the pair construction loop builds one point per
element, in order. -/
theorem buildOutPairPoints_ok (measurement : String) : ∀ (items : List JSValue),
    (∀ e ∈ items, e.isNullish = false) →
    buildOutPairPoints measurement items =
      Except.ok (items.map (buildPairPoint measurement)) := by
  intro items
  induction items with
  | nil => intro _; rfl
  | cons e es ih =>
    intro h
    simp only [buildOutPairPoints]
    rw [if_neg (by simp [h e (by simp)])]
    rw [ih (fun x hx => h x (by simp [hx]))]
    rfl

/-- With an always-succeeding client and no nullish item, the batch loop
writes exactly one point per item with a truthy measurement, in order. -/
theorem batchLoop_ok (client : LineProtocol → String → Except String Unit)
    (database : String) (hok : ∀ lp d, client lp d = Except.ok ()) :
    ∀ (items : List JSValue), (∀ e ∈ items, e.isNullish = false) →
    batchLoop client database items =
      ((items.filter (fun it => (it.prop "measurement").truthy)).map
        (fun it => ((buildBatchPoint it).toLineProtocol, database)), none) := by
  intro items
  induction items with
  | nil => intro _; rfl
  | cons e es ih =>
    intro h
    simp only [batchLoop]
    rw [if_neg (by simp [h e (by simp)])]
    by_cases ht : (e.prop "measurement").truthy
    · rw [if_pos ht, hok, ih (fun x hx => h x (by simp [hx]))]
      simp [List.filter_cons, ht]
    · rw [if_neg ht, ih (fun x hx => h x (by simp [hx]))]
      simp [List.filter_cons, ht]

/-- Accumulating decimal fold versus the little-endian digit polynomial. -/
theorem digitsFold_ofDigits (ds : List Char) : ∀ (a : ℕ),
    List.foldl (fun acc c => 10 * acc + (c.toNat - 48)) a ds =
      a * 10 ^ ds.length + Nat.ofDigits 10 ((ds.map (fun c => c.toNat - 48)).reverse) := by
  induction ds with
  | nil => intro a; simp [Nat.ofDigits]
  | cons c ds ih =>
    intro a
    simp only [List.foldl_cons, List.map_cons, List.reverse_cons, List.length_cons]
    rw [ih, Nat.ofDigits_append, Nat.ofDigits_singleton]
    simp only [List.length_reverse, List.length_map]
    ring

/-- Value computed by `digitsToNat`, as a digit polynomial. -/
theorem digitsToNat_eq (ds : List Char) :
    digitsToNat ds = specDigitsValue ds := by
  unfold digitsToNat specDigitsValue
  rw [digitsFold_ofDigits]
  simp

/-- Correctness of the executable regular-expression test against the
spec-side decomposition of the pattern `^-?\\d+i$`. -/
theorem matchesIntPattern_iff (s : String) :
    matchesIntPattern s = true ↔ ∃ neg ds, specIntLiteral neg ds s := by
  simp only [matchesIntPattern, specIntLiteral, Bool.and_eq_true, beq_iff_eq,
    Bool.not_eq_true', List.all_eq_true]
  constructor
  · rintro ⟨⟨hlast, hdrop⟩, hdig⟩
    by_cases hneg : s.toList.head? = some '-'
    · rw [if_pos hneg] at hlast hdrop hdig
      rcases List.eq_nil_or_concat s.toList.tail with htail | ⟨body, a, htail⟩
      · rw [htail] at hlast; simp at hlast
      · simp only [List.concat_eq_append] at htail
        rw [htail, List.getLast?_concat] at hlast
        obtain rfl : a = 'i' := by simpa using hlast
        rw [htail, List.dropLast_concat] at hdrop hdig
        have hbody : body ≠ [] := by intro h; rw [h] at hdrop; simp at hdrop
        refine ⟨true, body, hbody, hdig, ?_⟩
        rcases hcs : s.toList with _ | ⟨c, t⟩
        · rw [hcs] at hneg; simp at hneg
        · rw [hcs] at hneg htail
          simp only [List.head?_cons, Option.some.injEq] at hneg
          simp only [List.tail_cons] at htail
          simp [hneg, htail]
    · rw [if_neg hneg] at hlast hdrop hdig
      rcases List.eq_nil_or_concat s.toList with hcs | ⟨body, a, hcs⟩
      · rw [hcs] at hlast; simp at hlast
      · simp only [List.concat_eq_append] at hcs
        rw [hcs, List.getLast?_concat] at hlast
        obtain rfl : a = 'i' := by simpa using hlast
        rw [hcs, List.dropLast_concat] at hdrop hdig
        have hbody : body ≠ [] := by intro h; rw [h] at hdrop; simp at hdrop
        exact ⟨false, body, hbody, hdig, by simp only [cond_false, List.nil_append]; exact hcs⟩
  · rintro ⟨neg, ds, hne, hdig, hcs⟩
    obtain ⟨d, ds', rfl⟩ := List.exists_cons_of_ne_nil hne
    have hdnotdash : d ≠ '-' := fun h => by
      have hd := hdig d (by simp)
      rw [h] at hd
      exact absurd hd (by decide)
    cases neg
    · simp only [cond_false, List.nil_append] at hcs
      have hhead : s.toList.head? = some d := by rw [hcs]; rfl
      rw [if_neg (by rw [hhead]; simp [hdnotdash])]
      rw [hcs, List.getLast?_concat, List.dropLast_concat]
      exact ⟨⟨rfl, by simp⟩, hdig⟩
    · simp only [cond_true, List.singleton_append] at hcs
      have hhead : s.toList.head? = some '-' := by rw [hcs]; rfl
      rw [if_pos hhead]
      have htail : s.toList.tail = (d :: ds') ++ ['i'] := by rw [hcs]; rfl
      rw [htail, List.getLast?_concat, List.dropLast_concat]
      exact ⟨⟨rfl, by simp⟩, hdig⟩

/-- Value parsed by `parseIntJS` from a sign-and-digits string. -/
theorem parseIntJS_spec (neg : Bool) (ds : List Char) (hne : ds ≠ [])
    (hdig : ∀ c ∈ ds, c.isDigit = true) :
    parseIntJS (String.mk ((cond neg ['-'] []) ++ ds)) =
      (cond neg (-1) 1) * (specDigitsValue ds : ℤ) := by
  obtain ⟨d, ds', rfl⟩ := List.exists_cons_of_ne_nil hne
  have hdnotdash : d ≠ '-' := fun h => by
    have hd := hdig d (by simp)
    rw [h] at hd
    exact absurd hd (by decide)
  cases neg
  · simp only [cond_false, List.nil_append]
    unfold parseIntJS
    rw [if_neg (by simp [String.toList, hdnotdash])]
    rw [show (String.mk (d :: ds')).toList = d :: ds' from rfl, digitsToNat_eq]
    rw [one_mul]
  · simp only [cond_true, List.singleton_append]
    unfold parseIntJS
    rw [if_pos (by simp [String.toList])]
    rw [show (String.mk ('-' :: d :: ds')).toList.tail = d :: ds' from rfl, digitsToNat_eq]
    ring

/-! Claim theorems. -/

/-- C4: for every inbound message to the single-point write node with no
message-level measurement override and no configured default measurement,
the handler signals the missing-measurement failure and issues zero client
write calls. -/
theorem c4_missing_measurement (configDatabase : String)
    (client : LineProtocol → String → Except String Unit)
    (payload : JSValue) (msgDatabase : Option String) :
    influxOutOnInput "" configDatabase client
        { payload := payload, measurement := none, database := msgDatabase } =
      { writes := [], influxError := none,
        done := DoneArg.failString "influxdb.errors.nomeasurement" } := rfl

/-- C5: a string matching the pattern `^-?\d+i$` is classified as the
integer denoted by its sign and digit block (the trailing `i` stripped);
every other string is classified as an unchanged string. -/
theorem c5_string_classifier (m name s : String) :
    (∀ (neg : Bool) (ds : List Char), specIntLiteral neg ds s →
      addFieldToPoint (newPoint m) name (JSValue.str s) =
        { measurement := m,
          fields := [(name,
            TypedValue.integer ((cond neg (-1) 1) * (specDigitsValue ds : ℤ)))],
          tags := [], timestamp := none }) ∧
    ((∀ (neg : Bool) (ds : List Char), ¬ specIntLiteral neg ds s) →
      addFieldToPoint (newPoint m) name (JSValue.str s) =
        { measurement := m, fields := [(name, TypedValue.string s)],
          tags := [], timestamp := none }) := by
  constructor
  · rintro neg ds hlit
    have hmatch : matchesIntPattern s = true :=
      (matchesIntPattern_iff s).mpr ⟨neg, ds, hlit⟩
    obtain ⟨hne, hdig, hcs⟩ := hlit
    have hdrop : s.toList.dropLast = (cond neg ['-'] []) ++ ds := by
      rw [hcs, ← List.append_assoc, List.dropLast_concat]
    simp only [addFieldToPoint, hmatch, if_true]
    rw [hdrop, parseIntJS_spec neg ds hne hdig]
    rfl
  · intro hno
    have hmatch : matchesIntPattern s = false := by
      cases h : matchesIntPattern s
      · rfl
      · obtain ⟨neg, ds, hlit⟩ := (matchesIntPattern_iff s).mp h
        exact absurd hlit (hno neg ds)
    simp only [addFieldToPoint, hmatch]
    rfl

/-- Witness for C5 at the inputs `"-42i"` (matching) and `"abc"` (not). -/
theorem c5_witness :
    addFieldToPoint (newPoint "m") "f" (JSValue.str "-42i") =
      { measurement := "m", fields := [("f", TypedValue.integer (-42))],
        tags := [], timestamp := none } ∧
    addFieldToPoint (newPoint "m") "f" (JSValue.str "abc") =
      { measurement := "m", fields := [("f", TypedValue.string "abc")],
        tags := [], timestamp := none } := by
  constructor
  · have h := (c5_string_classifier "m" "f" "-42i").1 true ['4', '2']
      ⟨by decide, by decide, by decide⟩
    rw [h]
    norm_num [specDigitsValue, Nat.ofDigits]
    decide
  · refine (c5_string_classifier "m" "f" "abc").2 (fun neg ds hlit => ?_)
    have h := (matchesIntPattern_iff "abc").mpr ⟨neg, ds, hlit⟩
    exact absurd h (by decide)

/-- C6: a number with no fractional part is classified as the corresponding
integer; a number with a fractional part is classified as a float carrying
the same value. -/
theorem c6_number_classifier (m name : String) (q : ℚ) :
    (∀ n : ℤ, q = (n : ℚ) →
      addFieldToPoint (newPoint m) name (JSValue.num q) =
        { measurement := m, fields := [(name, TypedValue.integer n)],
          tags := [], timestamp := none }) ∧
    ((∀ n : ℤ, q ≠ (n : ℚ)) →
      addFieldToPoint (newPoint m) name (JSValue.num q) =
        { measurement := m, fields := [(name, TypedValue.float q)],
          tags := [], timestamp := none }) := by
  constructor
  · rintro n rfl
    have hden : ((n : ℚ)).den = 1 := Rat.den_intCast n
    have hnum : ((n : ℚ)).num = n := Rat.num_intCast n
    simp only [addFieldToPoint, hden, if_true, hnum]
    rfl
  · intro hno
    have hden : q.den ≠ 1 := by
      intro h1
      refine hno q.num ?_
      have := Rat.num_div_den q
      rw [h1] at this
      simp only [Nat.cast_one, div_one] at this
      exact this.symm
    simp only [addFieldToPoint, if_neg hden]
    rfl

/-- Witness for C6 at the integral value `3` and the fractional value `1/2`. -/
theorem c6_witness :
    addFieldToPoint (newPoint "m") "f" (JSValue.num 3) =
      { measurement := "m", fields := [("f", TypedValue.integer 3)],
        tags := [], timestamp := none } ∧
    addFieldToPoint (newPoint "m") "f" (JSValue.num (1/2)) =
      { measurement := "m", fields := [("f", TypedValue.float (1/2))],
        tags := [], timestamp := none } := by
  constructor
  · exact (c6_number_classifier "m" "f" 3).1 3 (by norm_num)
  · refine (c6_number_classifier "m" "f" (1/2)).2 (fun n h => ?_)
    rw [div_eq_iff (by norm_num : (2 : ℚ) ≠ 0)] at h
    have h2 : (1 : ℤ) = n * 2 := by exact_mod_cast h
    omega

/-- C9: an empty-array payload in the single-point write path (with a
resolvable measurement and a succeeding client) produces exactly one
degenerate point with no fields, no tags and no timestamp, and exactly one
write call for it. -/
theorem c9_empty_array (nodeMeasurement configDatabase : String)
    (client : LineProtocol → String → Except String Unit)
    (hm : nodeMeasurement ≠ "")
    (hok : ∀ lp d, client lp d = Except.ok ()) :
    influxOutOnInput nodeMeasurement configDatabase client
        { payload := JSValue.arr [], measurement := none, database := none } =
      { writes := [({ point := { measurement := nodeMeasurement, fields := [],
                                 tags := [], timestamp := none } }, configDatabase)],
        influxError := none, done := DoneArg.success } := by
  simp only [influxOutOnInput]
  rw [if_neg (by simp [hm])]
  simp [buildOutPoints]
  rw [writeLoop_ok _ _ hok]
  rfl

/-- Witness for C9 at concrete measurement and database names. -/
theorem c9_witness :
    influxOutOnInput "m" "db" okClient
        { payload := JSValue.arr [], measurement := none, database := none } =
      { writes := [({ point := { measurement := "m", fields := [], tags := [],
                                 timestamp := none } }, "db")],
        influxError := none, done := DoneArg.success } :=
  c9_empty_array "m" "db" okClient (by decide) (fun _ _ => rfl)

/-- C10: a batch item whose top-level `timestamp` property is falsy leaves
the built point's timestamp unset; a truthy `timestamp` property is applied
verbatim. -/
theorem c10_batch_timestamp (item : JSValue) :
    ((item.prop "timestamp").truthy = false →
      (buildBatchPoint item).timestamp = none) ∧
    ((item.prop "timestamp").truthy = true →
      (buildBatchPoint item).timestamp = some (item.prop "timestamp")) := by
  have hpre : (buildBatchPoint item).timestamp =
      (if (item.prop "timestamp").truthy = true then some (item.prop "timestamp")
       else none) := by
    simp only [buildBatchPoint]
    split
    · rfl
    · split
      · rw [tagFold_timestamp]
        split
        · rw [fieldFold_timestamp]; rfl
        · rfl
      · split
        · rw [fieldFold_timestamp]; rfl
        · rfl
  constructor
  · intro h
    rw [hpre, if_neg (by simp [h])]
  · intro h
    rw [hpre, if_pos h]

/-- Witness for C10 at a timestamp-free item and an item with timestamp 5. -/
theorem c10_witness :
    (buildBatchPoint (JSValue.obj [("measurement", JSValue.str "a")])).timestamp
      = none ∧
    (buildBatchPoint (JSValue.obj [("measurement", JSValue.str "a"),
        ("timestamp", JSValue.num 5)])).timestamp = some (JSValue.num 5) := by
  constructor
  · exact (c10_batch_timestamp (JSValue.obj [("measurement", JSValue.str "a")])).1 rfl
  · exact (c10_batch_timestamp (JSValue.obj [("measurement", JSValue.str "a"),
      ("timestamp", JSValue.num 5)])).2 rfl

/-- C2 counterexample: the batch item `{measurement: "a"}` lacks a `fields`
mapping, yet the handler does not skip it — it builds a zero-field point and
issues one write call for it. -/
theorem c2_counterexample :
    influxBatchOnInput "db" okClient
        { payload := JSValue.arr [JSValue.obj [("measurement", JSValue.str "a")]],
          database := none } =
      { writes := [({ point := { measurement := "a", fields := [], tags := [],
                                 timestamp := none } }, "db")],
        influxError := none, done := DoneArg.success } := rfl

/-- C2 (amended): in the batch write path, an item whose `measurement`
property is falsy is silently skipped, and every other item — including one
lacking a `fields` mapping, which yields a point with an empty field set —
produces exactly one DataPoint that is written, in payload order. -/
theorem c2_batch_filtering (configDatabase : String)
    (client : LineProtocol → String → Except String Unit)
    (items : List JSValue) (msgDatabase : Option String)
    (hok : ∀ lp d, client lp d = Except.ok ())
    (hnn : ∀ item ∈ items, item.isNullish = false) :
    influxBatchOnInput configDatabase client
        { payload := JSValue.arr items, database := msgDatabase } =
      { writes := (items.filter (fun it => (it.prop "measurement").truthy)).map
          (fun it => ((buildBatchPoint it).toLineProtocol,
            match msgDatabase with | some d => d | none => configDatabase)),
        influxError := none, done := DoneArg.success } := by
  simp only [influxBatchOnInput]
  rw [batchLoop_ok _ _ hok items hnn]

/-- Witness for C2 on the spec's batch-normalization example: the middle
item (missing measurement) is dropped, the other two are written in order. -/
theorem c2_witness :
    influxBatchOnInput "db" okClient
        { payload := JSValue.arr
            [JSValue.obj [("measurement", JSValue.str "a"),
                ("fields", JSValue.obj [("x", JSValue.num 1)])],
             JSValue.obj [("fields", JSValue.obj [("x", JSValue.num 2)])],
             JSValue.obj [("measurement", JSValue.str "b"),
                ("fields", JSValue.obj [("y", JSValue.num 2)])]],
          database := none } =
      { writes :=
          [({ point := { measurement := "a",
                         fields := [("x", TypedValue.integer 1)], tags := [],
                         timestamp := none } }, "db"),
           ({ point := { measurement := "b",
                         fields := [("y", TypedValue.integer 2)], tags := [],
                         timestamp := none } }, "db")],
        influxError := none, done := DoneArg.success } :=
  c2_batch_filtering "db" okClient
    [JSValue.obj [("measurement", JSValue.str "a"),
        ("fields", JSValue.obj [("x", JSValue.num 1)])],
     JSValue.obj [("fields", JSValue.obj [("x", JSValue.num 2)])],
     JSValue.obj [("measurement", JSValue.str "b"),
        ("fields", JSValue.obj [("y", JSValue.num 2)])]]
    none (fun _ _ => rfl) (by decide)

/-- C7: an array payload whose first element is an array yields one point
per `[fieldsMap, tagsMap]` pair, in payload order, and (with a succeeding
client) one write call per point, in that same order. -/
theorem c7_array_of_pairs (nodeMeasurement configDatabase : String)
    (items : List JSValue)
    (client : LineProtocol → String → Except String Unit)
    (hm : nodeMeasurement ≠ "")
    (hok : ∀ lp d, client lp d = Except.ok ())
    (hfirst : (items.getD 0 JSValue.undef).isArr = true)
    (hnn : ∀ item ∈ items, item.isNullish = false) :
    influxOutOnInput nodeMeasurement configDatabase client
        { payload := JSValue.arr items, measurement := none, database := none } =
      { writes := items.map (fun e =>
          ((buildPairPoint nodeMeasurement e).toLineProtocol, configDatabase)),
        influxError := none, done := DoneArg.success } := by
  obtain ⟨e, es, rfl⟩ : ∃ e es, items = e :: es := by
    cases items with
    | nil => simp [JSValue.isArr] at hfirst
    | cons e es => exact ⟨e, es, rfl⟩
  simp only [List.getD_cons_zero] at hfirst
  simp only [influxOutOnInput]
  rw [if_neg (by simp [hm])]
  simp only [buildOutPoints]
  rw [if_pos (by simp [hfirst])]
  rw [buildOutPairPoints_ok _ _ hnn]
  simp [writeLoop_ok _ _ hok, List.map_map, Function.comp]

/-- Witness for C7 on the spec's array-of-pairs example
`[[{x:1},{}],[{x:2},{t:"a"}]]`: two points, in order. -/
theorem c7_witness :
    influxOutOnInput "m" "db" okClient
        { payload := JSValue.arr
            [JSValue.arr [JSValue.obj [("x", JSValue.num 1)], JSValue.obj []],
             JSValue.arr [JSValue.obj [("x", JSValue.num 2)],
                JSValue.obj [("t", JSValue.str "a")]]],
          measurement := none, database := none } =
      { writes :=
          [({ point := { measurement := "m",
                         fields := [("x", TypedValue.integer 1)], tags := [],
                         timestamp := none } }, "db"),
           ({ point := { measurement := "m",
                         fields := [("x", TypedValue.integer 2)],
                         tags := [("t", "a")], timestamp := none } }, "db")],
        influxError := none, done := DoneArg.success } :=
  c7_array_of_pairs "m" "db"
    [JSValue.arr [JSValue.obj [("x", JSValue.num 1)], JSValue.obj []],
     JSValue.arr [JSValue.obj [("x", JSValue.num 2)],
        JSValue.obj [("t", JSValue.str "a")]]]
    okClient (by decide) (fun _ _ => rfl) rfl (by decide)

/-- C8: whenever the client's query call returns a row list, the handler
issues exactly one query call, sets the outbound payload to exactly that
row list (order preserved, fully materialized), sends the message, and only
then signals success. -/
theorem c8_query_materializes (nodeQuery nodeQueryType configDatabase : String)
    (client : String → String → Option String → Except String (List JSValue))
    (msgQuery msgQueryType msgDatabase : Option String) (rows : List JSValue)
    (hq : msgQuery.getD nodeQuery ≠ "")
    (hrows : ∀ q d opts, client q d opts = Except.ok rows) :
    influxInOnInput nodeQuery nodeQueryType configDatabase client
        { query := msgQuery, queryType := msgQueryType, database := msgDatabase } =
      { queries := [(msgQuery.getD nodeQuery, msgDatabase.getD configDatabase,
                     if msgQueryType.getD nodeQueryType == "influxql" then
                       some "influxql" else none)],
        events := [InEvent.send (JSValue.arr rows),
                   InEvent.doneCall DoneArg.success],
        influxError := none } := by
  cases msgQuery <;> cases msgQueryType <;> cases msgDatabase <;>
    simp only [Option.getD_some, Option.getD_none] at hq ⊢ <;>
    simp only [influxInOnInput] <;>
    rw [if_neg (by simp [hq])] <;>
    rw [hrows]

/-- Witness for C8 on the spec's example row sequence `[{a:1},{a:2}]`. -/
theorem c8_witness :
    influxInOnInput "q" "sql" "db"
        (fun _ _ _ => Except.ok [JSValue.obj [("a", JSValue.num 1)],
          JSValue.obj [("a", JSValue.num 2)]])
        { query := none, queryType := none, database := none } =
      { queries := [("q", "db", none)],
        events := [InEvent.send (JSValue.arr [JSValue.obj [("a", JSValue.num 1)],
                     JSValue.obj [("a", JSValue.num 2)]]),
                   InEvent.doneCall DoneArg.success],
        influxError := none } :=
  c8_query_materializes "q" "sql" "db"
    (fun _ _ _ => Except.ok [JSValue.obj [("a", JSValue.num 1)],
      JSValue.obj [("a", JSValue.num 2)]])
    none none none
    [JSValue.obj [("a", JSValue.num 1)], JSValue.obj [("a", JSValue.num 2)]]
    (by decide) (fun _ _ _ => rfl)

/-- Characterization of the `createPointFromData` entry fold on
duplicate-free entries: non-`time`, non-`tags` entries append classified
fields, a plain-object-valued `tags` entry appends its stringified entries
to the tag map, and a `time` entry overrides the timestamp. -/
theorem objFold_spec (entries : List (String × JSValue)) : ∀ (p : DataPoint),
    (entries.map Prod.fst).Nodup →
    (∀ k ∈ entries.map Prod.fst, k ∉ p.fields.map Prod.fst) →
    (∀ tes, (("tags" : String), JSValue.obj tes) ∈ entries →
      (tes.map Prod.fst).Nodup ∧ ∀ k ∈ tes.map Prod.fst, k ∉ p.tags.map Prod.fst) →
    entries.foldl objFoldStep p =
      { measurement := p.measurement,
        fields := p.fields ++ (entries.filter (fun e =>
            !(e.1 == "time" || (e.1 == "tags" && e.2.isPlainObject)))).map
          (fun e => (e.1, classifyValue e.2)),
        tags := p.tags ++
          (entries.find? (fun e => e.1 == "tags" && e.2.isPlainObject)).elim []
            (fun e => e.2.objEntries.map (fun t => (t.1, jsToString t.2))),
        timestamp :=
          (entries.find? (fun e => e.1 == "time")).elim p.timestamp
            (fun e => some e.2) } := by
  induction entries with
  | nil => intro p _ _ _; simp
  | cons e es ih =>
    obtain ⟨k, v⟩ := e
    intro p hnd hf ht
    simp only [List.map_cons, List.nodup_cons] at hnd
    obtain ⟨hknotin, hndes⟩ := hnd
    by_cases hk : (k == "time") = true
    · have hkeq : k = "time" := by simpa using hk
      subst hkeq
      simp only [List.foldl_cons, objFoldStep]
      rw [if_pos (by decide)]
      have hts : es.find? (fun e => e.1 == "time") = none :=
        find?_key_eq_none es "time" _ (fun e h => by simpa using h) hknotin
      rw [ih (p.setTimestamp v) hndes
          (fun k' hk' => hf k' (by simp [hk']))
          (fun tes htes => ht tes (by simp [htes]))]
      rw [List.filter_cons_of_neg (by simp),
          List.find?_cons_of_neg _ (by simp),
          List.find?_cons_of_pos _ (by simp), hts]
      simp [DataPoint.setTimestamp]
    · by_cases hkt : (k == "tags" && v.isPlainObject) = true
      · obtain ⟨hk2, hpv⟩ : k = "tags" ∧ v.isPlainObject = true := by simpa using hkt
        subst hk2
        rcases v with q | s | b | _ | _ | tes | items <;>
          simp [JSValue.isPlainObject] at hpv
        obtain ⟨htnd, htdisj⟩ := ht tes (by simp)
        simp only [List.foldl_cons, objFoldStep]
        rw [if_neg hk, if_pos (by simp [JSValue.isPlainObject])]
        rw [show (JSValue.obj tes).objEntries = tes from rfl]
        rw [tagFold_eq tes p htnd htdisj]
        have htagses :
            es.find? (fun e => e.1 == "tags" && e.2.isPlainObject) = none :=
          find?_key_eq_none es "tags" _
            (fun e h => by
              obtain ⟨h1, h2⟩ : e.1 = "tags" ∧ e.2.isPlainObject = true := by
                simpa using h
              exact h1) hknotin
        rw [ih { p with
              tags := p.tags ++ tes.map (fun e => (e.1, jsToString e.2)) } hndes
            (fun k' hk' => hf k' (by simp [hk']))
            (fun tes₂ htes₂ =>
              absurd (List.mem_map_of_mem Prod.fst htes₂) hknotin)]
        rw [List.filter_cons_of_neg (by simp [JSValue.isPlainObject]),
            List.find?_cons_of_pos _ (by simp [JSValue.isPlainObject]),
            List.find?_cons_of_neg _ (by simp), htagses]
        simp [JSValue.objEntries]
      · simp only [List.foldl_cons, objFoldStep]
        rw [if_neg hk, if_neg hkt]
        rw [addFieldToPoint_eq, upsert_fresh _ _ _ (hf k (by simp))]
        have hk' : (k == "time") = false := by
          rcases hb : (k == "time") with _ | _
          · rfl
          · exact absurd hb hk
        have hkt' : (k == "tags" && v.isPlainObject) = false := by
          rcases hb : (k == "tags" && v.isPlainObject) with _ | _
          · rfl
          · exact absurd hb hkt
        have hf' : ∀ k' ∈ es.map Prod.fst,
            k' ∉ (p.fields ++ [(k, classifyValue v)]).map Prod.fst := by
          intro k' hk' hmem
          simp only [List.map_append, List.mem_append, List.map_cons, List.map_nil,
            List.mem_singleton] at hmem
          rcases hmem with hmem | hmem
          · exact hf k' (by simp [hk']) hmem
          · exact hknotin (hmem ▸ hk')
        rw [ih { p with fields := p.fields ++ [(k, classifyValue v)] } hndes hf'
            (fun tes htes => ht tes (by simp [htes]))]
        rw [List.filter_cons_of_pos (by simp [hk', hkt']),
            List.find?_cons_of_neg _ (by simp [hkt']),
            List.find?_cons_of_neg _ (by simp [hk'])]
        simp

/-- C1 counterexample: the plain-object payload `{tags: {t: "v"}}` in the
single-point write path builds a point whose tag set is `{t: "v"}` — not
empty — and whose field map does not contain a classified `tags` entry. -/
theorem c1_counterexample :
    influxOutOnInput "m" "db" okClient
        { payload := JSValue.obj [("tags", JSValue.obj [("t", JSValue.str "v")])],
          measurement := none, database := none } =
      { writes := [({ point := { measurement := "m", fields := [],
                                 tags := [("t", "v")], timestamp := none } }, "db")],
        influxError := none, done := DoneArg.success } := rfl

/-- C1 (amended): for a plain-object payload in the single-point write path,
exactly one DataPoint is built and written; its fields are the object's
entries excluding `time` (redirected to the timestamp) and excluding a
plain-object-valued `tags` entry (redirected, stringified, to the tag set,
which is empty when no such entry exists), each remaining entry classified. -/
theorem c1_object_payload (nodeMeasurement configDatabase : String)
    (entries : List (String × JSValue))
    (client : LineProtocol → String → Except String Unit)
    (hm : nodeMeasurement ≠ "")
    (hok : ∀ lp d, client lp d = Except.ok ())
    (hnd : (entries.map Prod.fst).Nodup)
    (hts : ∀ e ∈ entries, (e.2.objEntries.map Prod.fst).Nodup) :
    influxOutOnInput nodeMeasurement configDatabase client
        { payload := JSValue.obj entries, measurement := none, database := none } =
      { writes := [(DataPoint.toLineProtocol
          { measurement := nodeMeasurement,
            fields := (entries.filter (fun e =>
                !(e.1 == "time" || (e.1 == "tags" && e.2.isPlainObject)))).map
              (fun e => (e.1, classifyValue e.2)),
            tags := (entries.find? (fun e => e.1 == "tags" && e.2.isPlainObject)).elim
              [] (fun e => e.2.objEntries.map (fun t => (t.1, jsToString t.2))),
            timestamp := (entries.find? (fun e => e.1 == "time")).elim none
              (fun e => some e.2) }, configDatabase)],
        influxError := none, done := DoneArg.success } := by
  simp only [influxOutOnInput]
  rw [if_neg (by simp [hm])]
  simp only [buildOutPoints, createPointFromData]
  rw [objFold_spec entries (newPoint nodeMeasurement) hnd
      (by intro k hk; simp [newPoint])
      (by intro tes htes
          refine ⟨?_, ?_⟩
          · have h := hts _ htes
            simpa [JSValue.objEntries] using h
          · intro k hk
            simp [newPoint])]
  simp [writeLoop_ok _ _ hok, newPoint, DataPoint.toLineProtocol]

/-- Witness for C1 on the payload
`{x: 1, time: 5, tags: {t: "v"}, y: "2i"}`. -/
theorem c1_witness :
    influxOutOnInput "m" "db" okClient
        { payload := JSValue.obj [("x", JSValue.num 1), ("time", JSValue.num 5),
            ("tags", JSValue.obj [("t", JSValue.str "v")]), ("y", JSValue.str "2i")],
          measurement := none, database := none } =
      { writes := [({ point := { measurement := "m",
                                 fields := [("x", TypedValue.integer 1),
                                            ("y", TypedValue.integer 2)],
                                 tags := [("t", "v")],
                                 timestamp := some (JSValue.num 5) } }, "db")],
        influxError := none, done := DoneArg.success } := by
  have h := c1_object_payload "m" "db"
    [("x", JSValue.num 1), ("time", JSValue.num 5),
     ("tags", JSValue.obj [("t", JSValue.str "v")]), ("y", JSValue.str "2i")]
    okClient (by decide) (fun _ _ => rfl) (by decide) (by decide)
  rw [h]
  rfl

/-- C3 counterexample: a missing-measurement validation failure is signaled
through `done`, but `msg.influx_error` is NOT attached (it stays unset),
contradicting the claim that every failure carries the diagnostic field. -/
theorem c3_counterexample :
    influxOutOnInput "" "db" okClient
        { payload := JSValue.num 1, measurement := none, database := none } =
      { writes := [], influxError := none,
        done := DoneArg.failString "influxdb.errors.nomeasurement" } := rfl

/-- C3 (amended): in all three handlers, an error thrown inside the handler
(in particular any client write/query failure) is annotated on
`msg.influx_error` and signaled via `done(error)` — `done` receives an
`Error` with message `e` exactly when `influx_error` is set to `e`; the
locally raised validation failures (missing measurement, missing query,
non-array batch payload) are signaled via `done` without attaching
`influx_error`; every failure is surfaced through `done`, none is retried. -/
theorem c3_error_reporting :
    (∀ (nodeMeasurement configDatabase : String)
        (client : LineProtocol → String → Except String Unit) (msg : OutMsg),
      (∀ e, (influxOutOnInput nodeMeasurement configDatabase client msg).done
            = DoneArg.failError e ↔
          (influxOutOnInput nodeMeasurement configDatabase client msg).influxError
            = some e) ∧
      (∀ s, (influxOutOnInput nodeMeasurement configDatabase client msg).done
            = DoneArg.failString s →
          s = "influxdb.errors.nomeasurement" ∧
          (influxOutOnInput nodeMeasurement configDatabase client msg).influxError
            = none ∧
          (influxOutOnInput nodeMeasurement configDatabase client msg).writes = [])) ∧
    (∀ (configDatabase : String)
        (client : LineProtocol → String → Except String Unit) (msg : BatchMsg),
      (∀ items e, msg.payload = JSValue.arr items →
        ((influxBatchOnInput configDatabase client msg).done = DoneArg.failError e ↔
          (influxBatchOnInput configDatabase client msg).influxError = some e)) ∧
      (msg.payload.isArr = false →
        (influxBatchOnInput configDatabase client msg).done =
          DoneArg.failError "Payload must be an array for batch operations" ∧
        (influxBatchOnInput configDatabase client msg).influxError = none ∧
        (influxBatchOnInput configDatabase client msg).writes = [])) ∧
    (∀ (nodeQuery nodeQueryType configDatabase : String)
        (client : String → String → Option String → Except String (List JSValue))
        (msg : InMsg),
      (∀ e, InEvent.doneCall (DoneArg.failError e)
            ∈ (influxInOnInput nodeQuery nodeQueryType configDatabase client msg).events ↔
          (influxInOnInput nodeQuery nodeQueryType configDatabase client msg).influxError
            = some e) ∧
      (∀ s, InEvent.doneCall (DoneArg.failString s)
            ∈ (influxInOnInput nodeQuery nodeQueryType configDatabase client msg).events →
          s = "influxdb.errors.noquery" ∧
          (influxInOnInput nodeQuery nodeQueryType configDatabase client msg).influxError
            = none)) := by
  refine ⟨?_, ?_, ?_⟩
  · intro nodeMeasurement configDatabase client msg
    simp only [influxOutOnInput]
    split
    · constructor
      · intro e
        simp
      · intro s hs
        simp only at hs
        injection hs with hs
        exact ⟨hs.symm, rfl, rfl⟩
    · split
      · constructor
        · intro e
          simp
        · intro s hs
          simp at hs
      · split
        · constructor
          · intro e
            simp
          · intro s hs
            simp at hs
        · constructor
          · intro e
            simp
          · intro s hs
            simp at hs
  · intro configDatabase client msg
    rcases msg with ⟨payload, msgDatabase⟩
    constructor
    · rintro items e rfl
      simp only [influxBatchOnInput]
      split
      · simp
      · simp
    · intro harr
      rcases payload with q | s | b | _ | _ | entries | items <;>
        simp [JSValue.isArr] at harr <;>
        exact ⟨rfl, rfl, rfl⟩
  · intro nodeQuery nodeQueryType configDatabase client msg
    simp only [influxInOnInput]
    split
    · constructor
      · intro e
        constructor
        · intro h
          simp at h
        · intro h
          simp at h
      · intro s hs
        simp at hs
        exact ⟨hs, rfl⟩
    · split
      · constructor
        · intro e
          constructor
          · intro h
            simp at h
          · intro h
            simp at h
        · intro s hs
          simp at hs
      · constructor
        · intro e
          constructor
          · intro h
            simp at h
            simp [h]
          · intro h
            simp at h
            simp [h]
        · intro s hs
          simp at hs

/-- Witness for C3: a failing client write gets its message attached to
`msg.influx_error`. -/
theorem c3_witness :
    (influxOutOnInput "m" "db" boomClient
        { payload := JSValue.num 1, measurement := none, database := none }).influxError
      = some "boom" :=
  ((c3_error_reporting.1 "m" "db" boomClient
      { payload := JSValue.num 1, measurement := none, database := none }).1 "boom").mp rfl
